import Mathlib

/-!
Shallow embedding of the PS rental-order server (server.js, newer variant):
order data model, billing arithmetic, lifecycle handlers (create, edit,
complete, delete/restore), identifier lookup, the auto-completion sweeper,
the daily-report vip overlay, and the chunked Telegram sender.

Times are modelled as integers (milliseconds since epoch, as JS Date
arithmetic produces), money as integers, and the JS floating-point
`Math.floor`/`Math.ceil` over quotients as `Int.floor`/`Int.ceil` over ℚ.
JS strings are modelled as lists of characters.
-/

namespace PsTest

abbrev Str := List Char

/-- Order `type` enumeration from the schema: `enum: ["cash", "vip"]`. -/
inductive OType
  | cash
  | vip
deriving DecidableEq, Repr

/-- Order `status` enumeration from the schema: `["process", "completed", "trash"]`. -/
inductive OStatus
  | process
  | completed
  | trash
deriving DecidableEq, Repr

/-- The Order document (orderSchema in server.js), with the `prevStatus`
field the delete handler writes and the restore handler clears. -/
structure Order where
  mongoId : Str := []
  orderId : Int := 0
  externalId : Str := []
  ps : Str := []
  type : OType := .vip
  startTime : Int := 0
  endTime : Option Int := none
  summa : Int := 0
  status : OStatus := .process
  createdAt : Int := 0
  completedAt : Option Int := none
  deletedAt : Option Int := none
  prevStatus : Option OStatus := none
deriving DecidableEq, Repr

/-- The rounded accrual computation the server repeats verbatim in the vip
branch of `/complete/:id` (lines 287-289), the cash branch of the same
handler (lines 298-299) and the `/daily-report` vip overlay (lines 439-441):
`raw = Math.ceil(diffMs / (3600*1000) * PRICE_PER_HOUR)` followed by
`Math.ceil(raw / 1000) * 1000`.  The spec names it `vipAccruedAmount`. -/
def vipAccruedAmount (startTime now rate : Int) : Int :=
  let raw : Int := Int.ceil (((now - startTime : Int) : ℚ) / 3600000 * (rate : ℚ))
  Int.ceil ((raw : ℚ) / 1000) * 1000

/-- `Math.floor(diffMs / 60000)` used for elapsed/remaining minutes. -/
def minutesFloor (diffMs : Int) : Int :=
  Int.floor ((diffMs : ℚ) / 60000)

/-- `Math.floor(amount / PRICE_PER_HOUR * 3600 * 1000)`: the prepaid-cash
duration in milliseconds (create and edit handlers). -/
def cashDurationMs (amount rate : Int) : Int :=
  Int.floor ((amount : ℚ) / (rate : ℚ) * 3600000)

/-! Section: Create (POST /order, lines 184-213) -/

inductive CreateError
  | cashAmountRequired
deriving DecidableEq, Repr

/-- POST /order: rejects a cash order whose amount is zero or negative
(`type === "cash" && (!amount || Number(amount) <= 0)`), otherwise builds
the order with `status = "process"`, `summa = amount`, and for cash
`endTime = start + Math.floor(amount / PRICE_PER_HOUR * 3600 * 1000)`.
`mongoId`, `nextOrderId` and `extId` stand for the store-assigned `_id`,
the sequence allocator result and the generated shortid. -/
def createOrder (rate now : Int) (mongoId : Str) (nextOrderId : Int) (extId : Str)
    (ps : Str) (ty : OType) (amount : Int) (startTime : Option Int) :
    Except CreateError Order :=
  if ty = .cash ∧ amount ≤ 0 then
    .error .cashAmountRequired
  else
    let start := startTime.getD now
    let endT : Option Int :=
      if ty = .cash then some (start + cashDurationMs amount rate) else none
    .ok
      { mongoId := mongoId, orderId := nextOrderId, externalId := extId, ps := ps
        type := ty, startTime := start, endTime := endT, summa := amount
        status := .process, createdAt := now, completedAt := none
        deletedAt := none, prevStatus := none }

/-- The handler calls `o.save()` only on success, so the store gains a
record exactly when validation passes. -/
def createStored (db : List Order) (rate now : Int) (mongoId : Str)
    (nextOrderId : Int) (extId ps : Str) (ty : OType) (amount : Int)
    (startTime : Option Int) : List Order :=
  match createOrder rate now mongoId nextOrderId extId ps ty amount startTime with
  | .ok o => db ++ [o]
  | .error _ => db

/-! Section: Edit (PUT /order/:id, lines 227-268) -/

/-- The optional fields of the PUT /order/:id body; `none` models an absent
(or JS-falsy) field, which the handler leaves untouched. -/
structure EditReq where
  ps : Option Str := none
  type : Option OType := none
  amount : Option Int := none
  startTime : Option Int := none
  status : Option OStatus := none
deriving DecidableEq, Repr

inductive EditError
  | vipIncrease
  | cashNonPositive
deriving DecidableEq, Repr

/-- PUT /order/:id.  The handler first overwrites `ps`, `type` and
`startTime` on the in-memory document, then — if `amount` is present —
checks `o.type === "vip" && newAmount > o.summa` (400) and
`o.type === "cash" && newAmount <= 0` (400); on a passing amount it sets
`summa` and recomputes `endTime` (cash) or nulls it (vip); finally it
applies `status` and saves. -/
def editOrder (rate : Int) (o : Order) (r : EditReq) : Except EditError Order :=
  let o1 := { o with
    ps := r.ps.getD o.ps
    type := r.type.getD o.type
    startTime := r.startTime.getD o.startTime }
  match r.amount with
  | none => .ok { o1 with status := r.status.getD o1.status }
  | some newAmount =>
    if o1.type = .vip ∧ o1.summa < newAmount then
      .error .vipIncrease
    else if o1.type = .cash ∧ newAmount ≤ 0 then
      .error .cashNonPositive
    else
      let o2 := { o1 with summa := newAmount }
      let o3 :=
        if o2.type = .cash then
          { o2 with endTime := some (o2.startTime + cashDurationMs newAmount rate) }
        else
          { o2 with endTime := none }
      .ok { o3 with status := r.status.getD o3.status }

/-- The stored document after the request: the handler returns the 400
before any `o.save()`, so a rejected edit leaves the stored order as it
was. -/
def editStored (rate : Int) (o : Order) (r : EditReq) : Order :=
  match editOrder rate o r with
  | .ok o' => o'
  | .error _ => o

/-! Section: Complete (POST /complete/:id, lines 271-323) -/

/-- What POST /complete/:id computes besides the saved order: `qaytish`
(refund), `oynaganSumma` (accrued), `oynaganMinut` (elapsed minutes),
`qolganMinut` (remaining minutes); all four start at 0. -/
structure CompleteOutcome where
  order : Order
  qaytish : Int
  oynaganSumma : Int
  oynaganMinut : Int
  qolganMinut : Int
deriving DecidableEq, Repr

/-- POST /complete/:id.  vip: accrue `vipAccruedAmount` into `summa` and
set `endTime = now`.  cash: compute the same rounded accrual; only when an
`endTime` exists and `now < endTime` set the refund, remaining minutes,
`summa = accrued` and `endTime = now`; otherwise leave `summa`/`endTime`
alone.  In every case set `status = "completed"`, `completedAt = now`.
There is no guard on the current status: an already-completed order is
re-billed. -/
def completeOrder (rate now : Int) (o : Order) : CompleteOutcome :=
  match o.type with
  | .vip =>
    let diffMs := now - o.startTime
    let oynaganMinut := minutesFloor diffMs
    let oynaganSumma := vipAccruedAmount o.startTime now rate
    { order := { o with
        summa := oynaganSumma, endTime := some now
        status := .completed, completedAt := some now }
      qaytish := 0, oynaganSumma := oynaganSumma
      oynaganMinut := oynaganMinut, qolganMinut := 0 }
  | .cash =>
    let oynaganMs := now - o.startTime
    let oynaganMinut := minutesFloor oynaganMs
    let oynaganSumma := vipAccruedAmount o.startTime now rate
    match o.endTime with
    | some e =>
      if now < e then
        { order := { o with
            summa := oynaganSumma, endTime := some now
            status := .completed, completedAt := some now }
          qaytish := o.summa - oynaganSumma, oynaganSumma := oynaganSumma
          oynaganMinut := oynaganMinut
          qolganMinut := minutesFloor (e - now) }
      else
        { order := { o with status := .completed, completedAt := some now }
          qaytish := 0, oynaganSumma := oynaganSumma
          oynaganMinut := oynaganMinut, qolganMinut := 0 }
    | none =>
      { order := { o with status := .completed, completedAt := some now }
        qaytish := 0, oynaganSumma := oynaganSumma
        oynaganMinut := oynaganMinut, qolganMinut := 0 }

/-! Section: Restore (POST /restore/:id, lines 389-408) -/

inductive RestoreError
  | notTrash
deriving DecidableEq, Repr

/-- POST /restore/:id: 400 unless `status === "trash"`; otherwise the order
comes back as `completed` with `completedAt = now`, `deletedAt = null` and
`prevStatus` removed. -/
def restoreOrder (now : Int) (o : Order) : Except RestoreError Order :=
  if o.status ≠ .trash then
    .error .notTrash
  else
    .ok { o with
      status := .completed, completedAt := some now
      deletedAt := none, prevStatus := none }

/-- The stored document after the request (save only happens on success). -/
def restoreStored (now : Int) (o : Order) : Order :=
  match restoreOrder now o with
  | .ok o' => o'
  | .error _ => o

/-! Section: Lookup (findOrderByAnyId, lines 86-103) -/

/-- findOrderByAnyId: try `Order.findById` when the string is a valid
ObjectId, then `Order.findOne({orderId: Number(id)})` when `Number(id)` is
not NaN, then `Order.findOne({externalId: id})`; the first hit wins.
`validObjectId` and `parseNumber` model `mongoose.Types.ObjectId.isValid`
and JS `Number` coercion; the store is a list queried with `find?`. -/
def findOrderByAnyId (validObjectId : Str → Bool) (parseNumber : Str → Option Int)
    (db : List Order) (id : Str) : Option Order :=
  match (if validObjectId id then db.find? (fun o => o.mongoId == id) else none) with
  | some byId => some byId
  | none =>
    match parseNumber id with
    | some n =>
      match db.find? (fun o => o.orderId == n) with
      | some byOrderId => some byOrderId
      | none => db.find? (fun o => o.externalId == id)
    | none => db.find? (fun o => o.externalId == id)

/-! Section: Auto-completion sweeper (setInterval, lines 554-572) -/

/-- The sweeper query: `{ status: "process", type: "cash",
endTime: { $lte: now } }` (a null endTime never matches `$lte`). -/
def sweepMatches (now : Int) (o : Order) : Bool :=
  o.status == .process && o.type == .cash &&
    (match o.endTime with
     | some e => decide (e ≤ now)
     | none => false)

/-- What the sweeper writes on each matched order: `status = "completed"`,
`completedAt = now`, then save — nothing else is touched. -/
def sweepComplete (now : Int) (o : Order) : Order :=
  { o with status := .completed, completedAt := some now }

/-- One sweeper run over the whole store. -/
def sweeperRun (now : Int) (db : List Order) : List Order :=
  db.map (fun o => if sweepMatches now o then sweepComplete now o else o)

/-! Section: Daily report vip overlay (GET /daily-report, lines 435-445) -/

/-- The report maps each `process` vip order to a copy whose `summa` is
the provisional accrual (`_calculated` flag not modelled); every other
order passes through unchanged. -/
def dailyReportOverlay (rate now : Int) (o : Order) : Order :=
  if o.status = .process ∧ o.type = .vip then
    { o with summa := vipAccruedAmount o.startTime now rate }
  else o

/-! Section: Chunked Telegram sender (sendToTelegramChunks, lines 133-144) -/

def telegramMax : Nat := 4000

/-- The initial chunk: `title ? `<b>${title}</b>\n` : ""`. -/
def chunkInit (title : Str) : Str :=
  if title = [] then []
  else ('<' :: 'b' :: '>' :: title) ++ ('<' :: '/' :: 'b' :: '>' :: '\n' :: [])

/-- One loop iteration: flush the current chunk first when appending
`line + "\n"` would push it past the budget, then append. -/
def chunksStep (acc : List Str × Str) (line : Str) : List Str × Str :=
  if telegramMax < (acc.2 ++ line ++ ['\n']).length then
    (acc.1 ++ [acc.2], line ++ ['\n'])
  else
    (acc.1, acc.2 ++ line ++ ['\n'])

/-- The list of messages handed to sendToTelegram: the flushed chunks plus
the final chunk when `chunk.trim()` is truthy (i.e. it holds some
non-whitespace character). -/
def sendToTelegramChunks (lines : List Str) (title : Str) : List Str :=
  let r := lines.foldl chunksStep ([], chunkInit title)
  if r.2.any (fun c => !c.isWhitespace) then r.1 ++ [r.2] else r.1

/-- Each line followed by the newline the sender appends, concatenated:
the payload the chunks carry after the title header. -/
def joinLines (lines : List Str) : Str :=
  (lines.map (fun l => l ++ ['\n'])).flatten

/-! Section: Concrete fixtures for witnesses and counterexamples -/

/-- A fresh vip order started at t = 0. -/
def vipOrder0 : Order := { type := .vip, startTime := 0 }

/-- The §8 scenario: cash order, amount 30000 at 15000/h, so
`endTime = startTime + 2h`. -/
def cashOrder30k : Order :=
  { type := .cash, startTime := 0, summa := 30000, endTime := some 7200000 }

/-- A trashed order that was in `process` before deletion. -/
def trashedOrder : Order :=
  { type := .cash, status := .trash, summa := 5000, endTime := some 60000
    deletedAt := some 42, prevStatus := some .process }

/-- An expired in-process cash order the sweeper should match at t = 10. -/
def expiredCashOrder : Order :=
  { type := .cash, status := .process, summa := 5000, startTime := 0
    endTime := some 5 }

/-- Lookup fixture: its externalId "7" parses as the number 7. -/
def orderB : Order := { orderId := 3, externalId := ['7'], summa := 1 }

/-- Lookup fixture: its orderId is the number 7. -/
def orderA : Order := { orderId := 7, externalId := ['x'], summa := 2 }

/-- Lookup fixture: its primary key is the string "7" and its externalId
is "q". -/
def orderP : Order :=
  { mongoId := ['7'], orderId := 42, externalId := ['q'], summa := 3 }

/-- Lookup fixture store; the externalId collision candidate comes first,
the primary-key holder last. -/
def lookupDb : List Order := [orderB, orderA, orderP]

/-- A vip order whose summa guards against increases in edits. -/
def vipOrder5k : Order := { type := .vip, summa := 5000, endTime := some 99 }

/-- A single report line of 4000 characters. -/
def bigLine : Str := List.replicate 4000 'a'

/-- A vip order whose startTime lies in the future of the completion
instant used against it. -/
def futureVipOrder : Order := { type := .vip, startTime := 3600000 }

/-- A rejected edit request that also tries to change ps, startTime and
status in the same call. -/
def editReqRejected : EditReq :=
  { ps := some ['Z'], amount := some 9000, startTime := some 123
    status := some .completed }

/-! Section: Helper lemmas -/

/-- Rewriting ceilings as floors lets norm_num evaluate them on literals. -/
theorem ceil_as_floor (a : ℚ) : Int.ceil a = -Int.floor (-a) := by
  rw [Int.floor_neg, neg_neg]

/-- The saved order of a vip completion, in closed form. -/
theorem completeOrder_vip (rate now : Int) (o : Order) (h : o.type = .vip) :
    (completeOrder rate now o).order =
      { o with
        summa := vipAccruedAmount o.startTime now rate, endTime := some now
        status := .completed, completedAt := some now } := by
  rcases o with ⟨mid, oid, eid, ps, ty, st, et, su, stat, ca, coa, da, pst⟩
  cases h
  rfl

/-! Section: Claim theorems -/

/-- C6: creating a cash order with amount ≤ 0 (including 0) fails with the
validation error and persists nothing, while any positive amount succeeds
with `endTime = startTime + ⌊amount / pricePerHour * 3600000⌋` exactly. -/
theorem create_cash_validation_and_endTime (db : List Order) (rate now : Int)
    (mongoId : Str) (nextOrderId : Int) (extId ps : Str) (amount : Int)
    (startTime : Option Int) :
    (amount ≤ 0 →
      createOrder rate now mongoId nextOrderId extId ps .cash amount startTime
        = .error .cashAmountRequired ∧
      createStored db rate now mongoId nextOrderId extId ps .cash amount startTime
        = db) ∧
    (0 < amount →
      ∃ o, createOrder rate now mongoId nextOrderId extId ps .cash amount startTime
          = .ok o ∧
        o.endTime = some (startTime.getD now + Int.floor ((amount : ℚ) / rate * 3600000)) ∧
        o.summa = amount ∧ o.status = .process ∧ o.type = .cash ∧
        o.startTime = startTime.getD now ∧
        createStored db rate now mongoId nextOrderId extId ps .cash amount startTime
          = db ++ [o]) := by
  constructor
  · intro h
    have hcond : OType.cash = OType.cash ∧ amount ≤ 0 := ⟨rfl, h⟩
    constructor
    · simp [createOrder, hcond]
    · simp [createStored, createOrder, hcond]
  · intro h
    have hcond : ¬(OType.cash = OType.cash ∧ amount ≤ 0) := by
      intro hc
      exact absurd hc.2 (not_le.mpr h)
    refine ⟨{ mongoId := mongoId, orderId := nextOrderId, externalId := extId
              ps := ps, type := .cash, startTime := startTime.getD now
              endTime := some (startTime.getD now + cashDurationMs amount rate)
              summa := amount, status := .process, createdAt := now
              completedAt := none, deletedAt := none, prevStatus := none },
      ?_, ?_, rfl, rfl, rfl, rfl, ?_⟩
    · simp [createOrder, not_le.mpr h]
    · simp [cashDurationMs]
    · simp [createStored, createOrder, not_le.mpr h]

/-- C6 witness: amount 0 is rejected; amount 15000 at rate 15000 gives
endTime = startTime + one hour (3600000 ms). -/
theorem create_cash_validation_witness :
    ((0 : Int) ≤ 0 ∧
      createOrder 15000 77 [] 1 ['s'] ['P'] .cash 0 (some 0) = .error .cashAmountRequired) ∧
    ((0 : Int) < 15000 ∧
      ∃ o, createOrder 15000 77 [] 1 ['s'] ['P'] .cash 15000 (some 0) = .ok o ∧
        o.endTime = some 3600000) := by
  have h0 := (create_cash_validation_and_endTime [] 15000 77 [] 1 ['s'] ['P'] 0 (some 0)).1
    le_rfl
  have h1 := (create_cash_validation_and_endTime [] 15000 77 [] 1 ['s'] ['P'] 15000 (some 0)).2
    (by norm_num)
  refine ⟨⟨le_rfl, h0.1⟩, by norm_num, ?_⟩
  obtain ⟨o, hok, hend, -, -, -, -, -⟩ := h1
  refine ⟨o, hok, ?_⟩
  rw [hend]
  norm_num

/-- C8: restore fails with a validation error and changes nothing unless
the order is trashed; a trashed order always comes back as completed with
completedAt = now, deletedAt and prevStatus cleared, whatever its status
was before it was trashed. -/
theorem restore_only_from_trash_to_completed (now : Int) (o : Order) :
    (o.status ≠ .trash →
      restoreOrder now o = .error .notTrash ∧ restoreStored now o = o) ∧
    (o.status = .trash →
      ∃ o', restoreOrder now o = .ok o' ∧ restoreStored now o = o' ∧
        o'.status = .completed ∧ o'.completedAt = some now ∧
        o'.deletedAt = none ∧ o'.prevStatus = none ∧
        o'.summa = o.summa ∧ o'.endTime = o.endTime) := by
  constructor
  · intro h
    constructor
    · simp [restoreOrder, h]
    · simp [restoreStored, restoreOrder, h]
  · intro h
    refine ⟨{ o with
        status := .completed, completedAt := some now
        deletedAt := none, prevStatus := none },
      ?_, ?_, rfl, rfl, rfl, rfl, rfl, rfl⟩
    · simp [restoreOrder, h]
    · simp [restoreStored, restoreOrder, h]

/-- C8 witness: restoring a trashed order whose prevStatus was process
yields a completed order; restoring a process order is rejected. -/
theorem restore_witness :
    (trashedOrder.status = .trash ∧
      ∃ o', restoreOrder 99 trashedOrder = .ok o' ∧ o'.status = .completed ∧
        o'.completedAt = some 99 ∧ o'.prevStatus = none) ∧
    (vipOrder5k.status ≠ .trash ∧ restoreStored 99 vipOrder5k = vipOrder5k) := by
  have h1 := (restore_only_from_trash_to_completed 99 trashedOrder).2 rfl
  have h2 := (restore_only_from_trash_to_completed 99 vipOrder5k).1 (by decide)
  obtain ⟨o', hok, -, hst, hca, -, hpv, -, -⟩ := h1
  exact ⟨⟨rfl, o', hok, hst, hca, hpv⟩, by decide, h2.2⟩

/-- C5: lookup tries the three strategies in the fixed order primary key,
numeric orderId, externalId, and returns the first match or not-found:
a primary-key hit wins outright; when the primary-key strategy does not
apply or finds nothing, a numeric-orderId hit wins — in particular over
any order whose externalId equals the identifier string; the externalId
strategy only answers when both earlier strategies produced nothing; and
when no strategy matches the result is not-found. -/
theorem lookup_three_strategy_precedence (validObjectId : Str → Bool)
    (parseNumber : Str → Option Int) (db : List Order) (id : Str) :
    (∀ P, validObjectId id = true →
      db.find? (fun o => o.mongoId == id) = some P →
      findOrderByAnyId validObjectId parseNumber db id = some P) ∧
    (∀ n A,
      (validObjectId id = false ∨ db.find? (fun o => o.mongoId == id) = none) →
      parseNumber id = some n →
      db.find? (fun o => o.orderId == n) = some A →
      findOrderByAnyId validObjectId parseNumber db id = some A) ∧
    (∀ B,
      (validObjectId id = false ∨ db.find? (fun o => o.mongoId == id) = none) →
      (∀ n, parseNumber id = some n → db.find? (fun o => o.orderId == n) = none) →
      db.find? (fun o => o.externalId == id) = some B →
      findOrderByAnyId validObjectId parseNumber db id = some B) ∧
    ((validObjectId id = false ∨ db.find? (fun o => o.mongoId == id) = none) →
      (∀ n, parseNumber id = some n → db.find? (fun o => o.orderId == n) = none) →
      db.find? (fun o => o.externalId == id) = none →
      findOrderByAnyId validObjectId parseNumber db id = none) := by
  have hfirst : validObjectId id = false ∨
      db.find? (fun o => o.mongoId == id) = none →
      (if validObjectId id then db.find? (fun o => o.mongoId == id) else none)
        = none := by
    intro h
    rcases h with h | h
    · rw [h]
      rfl
    · by_cases hv : validObjectId id
      · rw [if_pos hv, h]
      · rw [if_neg hv]
  refine ⟨?_, ?_, ?_, ?_⟩
  · intro P hv hP
    simp [findOrderByAnyId, hv, hP]
  · intro n A h hp hA
    simp only [findOrderByAnyId, hfirst h, hp, hA]
  · intro B h hn hB
    simp only [findOrderByAnyId, hfirst h]
    cases hpn : parseNumber id with
    | none => simp [hB]
    | some n => simp [hn n hpn, hB]
  · intro h hn hB
    simp only [findOrderByAnyId, hfirst h]
    cases hpn : parseNumber id with
    | none => simp [hB]
    | some n => simp [hn n hpn, hB]

/-- C5 witness, over the store [orderB, orderA, orderP] where orderB
(listed first) has externalId "7", orderA has orderId 7, and orderP has
primary key "7" and externalId "q": when "7" counts as a valid ObjectId
the lookup returns orderP (primary key beats both the orderId and the
externalId matches); when it does not, the same lookup returns orderA
(numeric orderId beats the earlier-listed externalId match); "q" — not
numeric, not an ObjectId — falls through to the externalId match orderP;
and "z" matches nothing. -/
theorem lookup_precedence_witness :
    ((fun s : Str => s == ['7']) ['7'] = true ∧
      lookupDb.find? (fun o => o.mongoId == ['7']) = some orderP ∧
      findOrderByAnyId (fun s => s == ['7'])
        (fun s => if s = ['7'] then some 7 else none) lookupDb ['7']
        = some orderP) ∧
    ((fun s : Str => if s = ['7'] then some 7 else none) ['7'] = some 7 ∧
      lookupDb.find? (fun o => o.orderId == 7) = some orderA ∧
      orderB.externalId = ['7'] ∧
      findOrderByAnyId (fun _ => false)
        (fun s => if s = ['7'] then some 7 else none) lookupDb ['7']
        = some orderA) ∧
    (lookupDb.find? (fun o => o.externalId == ['q']) = some orderP ∧
      findOrderByAnyId (fun _ => false)
        (fun s => if s = ['7'] then some 7 else none) lookupDb ['q']
        = some orderP) ∧
    findOrderByAnyId (fun _ => false)
      (fun s => if s = ['7'] then some 7 else none) lookupDb ['z'] = none := by
  have h1 := (lookup_three_strategy_precedence (fun s => s == ['7'])
    (fun s => if s = ['7'] then some 7 else none) lookupDb ['7']).1
    orderP rfl (by decide)
  have h2 := (lookup_three_strategy_precedence (fun _ => false)
    (fun s => if s = ['7'] then some 7 else none) lookupDb ['7']).2.1
    7 orderA (Or.inl rfl) rfl (by decide)
  have h3 := (lookup_three_strategy_precedence (fun _ => false)
    (fun s => if s = ['7'] then some 7 else none) lookupDb ['q']).2.2.1
    orderP (Or.inl rfl) (by intro n hn; simp at hn) (by decide)
  have h4 := (lookup_three_strategy_precedence (fun _ => false)
    (fun s => if s = ['7'] then some 7 else none) lookupDb ['z']).2.2.2
    (Or.inl rfl) (by intro n hn; simp at hn) (by decide)
  exact ⟨⟨rfl, by decide, h1⟩, ⟨rfl, by decide, rfl, h2⟩, ⟨by decide, h3⟩, h4⟩

/-- C7: a sweeper-matched order (process, cash, endTime ≤ now) is written
back with status = completed and completedAt = now and every other field —
summa and endTime in particular — exactly as before. -/
theorem sweeper_preserves_summa_endTime (now : Int) (o : Order)
    (h : sweepMatches now o = true) :
    (sweepComplete now o).status = .completed ∧
    (sweepComplete now o).completedAt = some now ∧
    (sweepComplete now o).summa = o.summa ∧
    (sweepComplete now o).endTime = o.endTime ∧
    (sweepComplete now o).ps = o.ps ∧
    (sweepComplete now o).type = o.type ∧
    (sweepComplete now o).startTime = o.startTime ∧
    (sweepComplete now o).orderId = o.orderId ∧
    (sweepComplete now o).externalId = o.externalId ∧
    (sweepComplete now o).createdAt = o.createdAt ∧
    (sweepComplete now o).deletedAt = o.deletedAt ∧
    (sweepComplete now o).prevStatus = o.prevStatus ∧
    ∀ db, o ∈ db → sweepComplete now o ∈ sweeperRun now db := by
  refine ⟨rfl, rfl, rfl, rfl, rfl, rfl, rfl, rfl, rfl, rfl, rfl, rfl, ?_⟩
  intro db hdb
  have hm := List.mem_map_of_mem
    (fun x => if sweepMatches now x then sweepComplete now x else x) hdb
  simpa [sweeperRun, h] using hm

/-- C7 witness: the expired in-process cash order is matched at t = 10 and
keeps summa 5000 and endTime 5 while becoming completed. -/
theorem sweeper_witness :
    sweepMatches 10 expiredCashOrder = true ∧
    (sweepComplete 10 expiredCashOrder).status = .completed ∧
    (sweepComplete 10 expiredCashOrder).summa = 5000 ∧
    (sweepComplete 10 expiredCashOrder).endTime = some 5 ∧
    sweepComplete 10 expiredCashOrder ∈ sweeperRun 10 [expiredCashOrder] := by
  have h : sweepMatches 10 expiredCashOrder = true := by decide
  have hm := sweeper_preserves_summa_endTime 10 expiredCashOrder h
  exact ⟨h, hm.1, hm.2.2.1.trans (by decide), hm.2.2.2.1.trans (by decide),
    hm.2.2.2.2.2.2.2.2.2.2.2.2 [expiredCashOrder] (by simp)⟩

/-- C4: on an order that is (and stays) vip, an edit carrying an amount
above the current summa is rejected with the validation error and the
stored order keeps its summa; an amount at or below the current summa is
accepted, becomes the new summa, and nulls endTime. -/
theorem edit_vip_amount_guard (rate : Int) (o : Order) (r : EditReq) (a : Int)
    (ho : o.type = .vip) (hrt : r.type = none ∨ r.type = some .vip)
    (ha : r.amount = some a) :
    (o.summa < a →
      editOrder rate o r = .error .vipIncrease ∧ editStored rate o r = o) ∧
    (a ≤ o.summa →
      ∃ o', editOrder rate o r = .ok o' ∧ o'.summa = a ∧ o'.endTime = none) := by
  have hty : r.type.getD o.type = .vip := by
    rcases hrt with h | h <;> simp [h, ho]
  constructor
  · intro h
    have herr : editOrder rate o r = .error .vipIncrease := by
      simp only [editOrder, ha]
      rw [if_pos]
      exact ⟨by simpa using hty, by simpa using h⟩
    exact ⟨herr, by simp [editStored, herr]⟩
  · intro h
    have hc1 : ¬(({ o with
        ps := r.ps.getD o.ps, type := r.type.getD o.type
        startTime := r.startTime.getD o.startTime } : Order).type = .vip ∧
        ({ o with
        ps := r.ps.getD o.ps, type := r.type.getD o.type
        startTime := r.startTime.getD o.startTime } : Order).summa < a) := by
      intro hc
      exact absurd hc.2 (by simpa using not_lt.mpr h)
    have hc2 : ¬(({ o with
        ps := r.ps.getD o.ps, type := r.type.getD o.type
        startTime := r.startTime.getD o.startTime } : Order).type = .cash ∧ a ≤ 0) := by
      intro hc
      have : OType.vip = OType.cash := by
        rw [← hty]
        simpa using hc.1
      exact absurd this (by simp)
    simp only [editOrder, ha]
    rw [if_neg hc1, if_neg hc2, if_neg]
    · exact ⟨_, rfl, rfl, rfl⟩
    · intro hc
      have : OType.vip = OType.cash := by
        rw [← hty]
        simpa using hc
      exact absurd this (by simp)

/-- C4 witness: on the vip order with summa 5000, an edit to 6000 is
rejected and leaves the stored order as it was; an edit to 4000 succeeds
with summa 4000 and endTime null. -/
theorem edit_vip_amount_guard_witness :
    vipOrder5k.type = .vip ∧
    (vipOrder5k.summa < 6000 ∧
      editOrder 15000 vipOrder5k { amount := some 6000 } = .error .vipIncrease ∧
      editStored 15000 vipOrder5k { amount := some 6000 } = vipOrder5k) ∧
    ((4000 : Int) ≤ vipOrder5k.summa ∧
      ∃ o', editOrder 15000 vipOrder5k { amount := some 4000 } = .ok o' ∧
        o'.summa = 4000 ∧ o'.endTime = none) := by
  have h1 := (edit_vip_amount_guard 15000 vipOrder5k { amount := some 6000 } 6000
    rfl (Or.inl rfl) rfl).1 (by decide)
  have h2 := (edit_vip_amount_guard 15000 vipOrder5k { amount := some 4000 } 4000
    rfl (Or.inl rfl) rfl).2 (by decide)
  exact ⟨rfl, ⟨by decide, h1.1, h1.2⟩, by decide, h2⟩

/-- C10: whenever the amount check rejects an edit — the effective type is
vip with an amount above summa, or cash with a non-positive amount — the
handler returns before saving, so the stored order is completely
unchanged even when ps, type, startTime or status were supplied too. -/
theorem edit_rejected_leaves_order_unchanged (rate : Int) (o : Order)
    (r : EditReq) (a : Int) (ha : r.amount = some a)
    (hrej : (r.type.getD o.type = .vip ∧ o.summa < a) ∨
      (r.type.getD o.type = .cash ∧ a ≤ 0)) :
    editStored rate o r = o ∧ ∃ e, editOrder rate o r = .error e := by
  rcases hrej with ⟨hty, hlt⟩ | ⟨hty, hle⟩
  · have herr : editOrder rate o r = .error .vipIncrease := by
      simp only [editOrder, ha]
      rw [if_pos]
      exact ⟨by simpa using hty, by simpa using hlt⟩
    exact ⟨by simp [editStored, herr], _, herr⟩
  · have herr : editOrder rate o r = .error .cashNonPositive := by
      simp only [editOrder, ha]
      rw [if_neg, if_pos]
      · exact ⟨by simpa using hty, hle⟩
      · intro hc
        have : OType.cash = OType.vip := by
          rw [← hty]
          simpa using hc.1
        exact absurd this (by simp)
    exact ⟨by simp [editStored, herr], _, herr⟩

/-- C10 witness: a rejected edit that also supplies ps, startTime and
status leaves the stored vip order exactly as it was. -/
theorem edit_rejected_witness :
    editReqRejected.amount = some 9000 ∧
    (editReqRejected.type.getD vipOrder5k.type = .vip ∧ vipOrder5k.summa < 9000) ∧
    editReqRejected.ps = some ['Z'] ∧ editReqRejected.startTime = some 123 ∧
    editStored 15000 vipOrder5k editReqRejected = vipOrder5k := by
  have h := edit_rejected_leaves_order_unchanged 15000 vipOrder5k editReqRejected
    9000 rfl (Or.inl ⟨rfl, by decide⟩)
  exact ⟨rfl, ⟨rfl, by decide⟩, rfl, rfl, h.1⟩

/-- C2: completing a cash order with an endTime: the accrual is the
rounded `vipAccruedAmount` formula; completing before endTime yields the
refund `summa - accrued`, remaining minutes `⌊(endTime - now)/60000⌋`, and
overwrites summa with the accrual and endTime with now; completing at or
after endTime leaves summa and endTime untouched. -/
theorem complete_cash_early_refund (rate now : Int) (o : Order) (e : Int)
    (ht : o.type = .cash) (he : o.endTime = some e) (hs : 0 < o.summa) :
    (now < e →
      (completeOrder rate now o).order.summa = vipAccruedAmount o.startTime now rate ∧
      (completeOrder rate now o).order.endTime = some now ∧
      (completeOrder rate now o).qaytish
        = o.summa - vipAccruedAmount o.startTime now rate ∧
      (completeOrder rate now o).qolganMinut = minutesFloor (e - now) ∧
      (completeOrder rate now o).oynaganSumma = vipAccruedAmount o.startTime now rate ∧
      (completeOrder rate now o).order.status = .completed) ∧
    (e ≤ now →
      (completeOrder rate now o).order.summa = o.summa ∧
      (completeOrder rate now o).order.endTime = some e ∧
      (completeOrder rate now o).order.status = .completed) := by
  rcases o with ⟨mid, oid, eid, ps, ty, st, et, su, stat, ca, coa, da, pst⟩
  cases ht
  cases he
  constructor
  · intro h
    simp only [completeOrder]
    rw [if_pos h]
    exact ⟨rfl, rfl, rfl, rfl, rfl, rfl⟩
  · intro h
    simp only [completeOrder]
    rw [if_neg (not_lt.mpr h)]
    exact ⟨rfl, rfl, rfl⟩

/-- C2 witness: the §8 scenario — cash order of 30000 at 15000/h
(endTime = start + 2h) completed 30 minutes in: accrued 8000, refund
22000, 90 minutes remaining, summa becomes 8000 and endTime becomes the
completion instant. -/
theorem complete_cash_early_refund_witness :
    cashOrder30k.type = .cash ∧ cashOrder30k.endTime = some 7200000 ∧
    (0 : Int) < cashOrder30k.summa ∧ (1800000 : Int) < 7200000 ∧
    (completeOrder 15000 1800000 cashOrder30k).order.summa = 8000 ∧
    (completeOrder 15000 1800000 cashOrder30k).qaytish = 22000 ∧
    (completeOrder 15000 1800000 cashOrder30k).qolganMinut = 90 ∧
    (completeOrder 15000 1800000 cashOrder30k).order.endTime = some 1800000 := by
  have h := (complete_cash_early_refund 15000 1800000 cashOrder30k 7200000
    rfl rfl (by decide)).1 (by decide)
  have hacc : vipAccruedAmount cashOrder30k.startTime 1800000 15000 = 8000 := by
    simp only [cashOrder30k, vipAccruedAmount, ceil_as_floor]
    norm_num
  refine ⟨rfl, rfl, by decide, by decide, ?_, ?_, ?_, h.2.1⟩
  · rw [h.1, hacc]
  · rw [h.2.2.1, hacc]
    decide
  · rw [h.2.2.2.1]
    simp only [minutesFloor, ceil_as_floor]
    norm_num

/-- C1: the complete handler has no status guard, so a second Complete on
an already-completed vip order re-runs the metering and changes both summa
and endTime: the vip order started at 0 and completed at t = 3600000
carries summa 15000 and endTime 3600000, and completing it again at
t = 7200000 rewrites them to 30000 and 7200000. -/
theorem complete_second_call_changes_vip :
    (completeOrder 15000 3600000 vipOrder0).order.status = .completed ∧
    (completeOrder 15000 3600000 vipOrder0).order.summa = 15000 ∧
    (completeOrder 15000 3600000 vipOrder0).order.endTime = some 3600000 ∧
    (completeOrder 15000 7200000
      ((completeOrder 15000 3600000 vipOrder0).order)).order.summa = 30000 ∧
    (completeOrder 15000 7200000
      ((completeOrder 15000 3600000 vipOrder0).order)).order.endTime = some 7200000 ∧
    (30000 : Int) ≠ 15000 ∧ some (7200000 : Int) ≠ some 3600000 := by
  have e1 : vipAccruedAmount 0 3600000 15000 = 15000 := by
    simp only [vipAccruedAmount, ceil_as_floor]
    norm_num
  have e2 : vipAccruedAmount 0 7200000 15000 = 30000 := by
    simp only [vipAccruedAmount, ceil_as_floor]
    norm_num
  have h1 : (completeOrder 15000 3600000 vipOrder0).order =
      { vipOrder0 with
        summa := 15000, endTime := some 3600000
        status := .completed, completedAt := some 3600000 } := by
    rw [completeOrder_vip 15000 3600000 vipOrder0 rfl]
    simp only [vipOrder0]
    rw [show vipAccruedAmount 0 3600000 15000 = 15000 from e1]
  have h2 : (completeOrder 15000 7200000
      ((completeOrder 15000 3600000 vipOrder0).order)).order.summa = 30000 := by
    rw [h1, completeOrder_vip 15000 7200000 _ rfl]
    simpa [vipOrder0] using e2
  have h3 : (completeOrder 15000 7200000
      ((completeOrder 15000 3600000 vipOrder0).order)).order.endTime = some 7200000 := by
    rw [h1, completeOrder_vip 15000 7200000 _ rfl]
  exact ⟨by rw [h1], by rw [h1], by rw [h1], h2, h3, by decide, by decide⟩

/-- C3 counterexample: with a startTime after now (reachable, since create
and edit accept arbitrary startTime values), the accrual is negative —
here -15000 — so it is not a non-negative multiple of 1000 for every
startTime/now pair, and completing such a vip order stores the negative
amount. -/
theorem vipAccrued_negative_on_future_start :
    vipAccruedAmount 3600000 0 15000 = -15000 ∧
    vipAccruedAmount 3600000 0 15000 < 0 ∧
    (completeOrder 15000 0 futureVipOrder).order.summa = -15000 := by
  have e : vipAccruedAmount 3600000 0 15000 = -15000 := by
    simp only [vipAccruedAmount, ceil_as_floor]
    norm_num
  refine ⟨e, by rw [e]; norm_num, ?_⟩
  rw [completeOrder_vip 15000 0 futureVipOrder rfl]
  simpa [futureVipOrder] using e

/-- C3 (amended): when now is not before startTime and the rate is
positive, the vip accrual is a non-negative multiple of 1000; it is
exactly the amount a vip completion at that instant stores in summa and
the provisional amount the daily report overlays on open vip orders. -/
theorem vipAccrued_nonneg_multiple_of_1000 (startTime now rate : Int)
    (h : startTime ≤ now) (hr : 0 < rate) :
    0 ≤ vipAccruedAmount startTime now rate ∧
    (1000 : Int) ∣ vipAccruedAmount startTime now rate ∧
    (∀ o : Order, o.type = .vip → o.startTime = startTime →
      (completeOrder rate now o).order.summa = vipAccruedAmount startTime now rate) ∧
    (∀ o : Order, o.status = .process → o.type = .vip → o.startTime = startTime →
      (dailyReportOverlay rate now o).summa = vipAccruedAmount startTime now rate) := by
  refine ⟨?_, ?_, ?_, ?_⟩
  · have h0 : (0 : ℚ) ≤ ((now - startTime : Int) : ℚ) / 3600000 * (rate : ℚ) := by
      apply mul_nonneg
      · apply div_nonneg _ (by norm_num)
        exact_mod_cast sub_nonneg.mpr h
      · exact_mod_cast hr.le
    have h1 : (0 : Int) ≤
        Int.ceil (((now - startTime : Int) : ℚ) / 3600000 * (rate : ℚ)) :=
      Int.ceil_nonneg h0
    have h2 : (0 : ℚ) ≤
        ((Int.ceil (((now - startTime : Int) : ℚ) / 3600000 * (rate : ℚ)) : Int) : ℚ)
          / 1000 := by
      apply div_nonneg _ (by norm_num)
      exact_mod_cast h1
    have h3 : (0 : Int) ≤ Int.ceil
        (((Int.ceil (((now - startTime : Int) : ℚ) / 3600000 * (rate : ℚ)) : Int) : ℚ)
          / 1000) :=
      Int.ceil_nonneg h2
    simpa [vipAccruedAmount] using mul_nonneg h3 (show (0 : Int) ≤ 1000 by norm_num)
  · exact dvd_mul_left 1000 _
  · intro o hto hst
    rw [completeOrder_vip rate now o hto, hst]
  · intro o hso hto hst
    simp [dailyReportOverlay, hso, hto, hst]

/-- C3 witness: the §8 vip scenario — 95 minutes at 15000/h accrues 24000,
which is non-negative and a multiple of 1000. -/
theorem vipAccrued_nonneg_multiple_witness :
    (0 : Int) ≤ 5700000 ∧ (0 : Int) < 15000 ∧
    0 ≤ vipAccruedAmount 0 5700000 15000 ∧
    (1000 : Int) ∣ vipAccruedAmount 0 5700000 15000 ∧
    vipAccruedAmount 0 5700000 15000 = 24000 := by
  have h := vipAccrued_nonneg_multiple_of_1000 0 5700000 15000 (by norm_num)
    (by norm_num)
  refine ⟨by norm_num, by norm_num, h.1, h.2.1, ?_⟩
  simp only [vipAccruedAmount, ceil_as_floor]
  norm_num

/-- Invariant of the chunking loop: if every already-sent message and the
open chunk respect the budget, every remaining line is short enough and
carries a visible character, and the open chunk is empty or visible, then
the loop keeps all of that and the concatenation of sent messages plus the
open chunk is exactly the prior content followed by the remaining lines
each with its newline. -/
theorem chunksFold_invariant (lines : List Str) :
    ∀ sent chunk,
      (∀ m ∈ sent, m.length ≤ telegramMax) →
      chunk.length ≤ telegramMax →
      (∀ l ∈ lines, l.length < telegramMax ∧
        l.any (fun c => !c.isWhitespace) = true) →
      (chunk = [] ∨ chunk.any (fun c => !c.isWhitespace) = true) →
      (∀ m ∈ (lines.foldl chunksStep (sent, chunk)).1, m.length ≤ telegramMax) ∧
      (lines.foldl chunksStep (sent, chunk)).2.length ≤ telegramMax ∧
      ((lines.foldl chunksStep (sent, chunk)).2 = [] ∨
        (lines.foldl chunksStep (sent, chunk)).2.any
          (fun c => !c.isWhitespace) = true) ∧
      (lines.foldl chunksStep (sent, chunk)).1.flatten
          ++ (lines.foldl chunksStep (sent, chunk)).2
        = sent.flatten ++ chunk ++ joinLines lines := by
  induction lines with
  | nil =>
    intro sent chunk hs hc _ hb
    refine ⟨hs, hc, hb, ?_⟩
    simp [joinLines]
  | cons l ls ih =>
    intro sent chunk hs hc hl hb
    have hline := hl l (by simp)
    have hlen : (l ++ ['\n']).length ≤ telegramMax := by
      have := hline.1
      simp only [List.length_append, List.length_cons, List.length_nil]
      omega
    have hvis : (l ++ ['\n']).any (fun c => !c.isWhitespace) = true := by
      rw [List.any_append]
      simp [hline.2]
    have hls : ∀ x ∈ ls, x.length < telegramMax ∧
        x.any (fun c => !c.isWhitespace) = true := fun x hx => hl x (by simp [hx])
    simp only [List.foldl_cons]
    by_cases hbig : telegramMax < (chunk ++ l ++ ['\n']).length
    · have hstep : chunksStep (sent, chunk) l = (sent ++ [chunk], l ++ ['\n']) := by
        dsimp only [chunksStep]
        rw [if_pos hbig]
      rw [hstep]
      have hs' : ∀ m ∈ sent ++ [chunk], m.length ≤ telegramMax := by
        intro m hm
        rcases List.mem_append.mp hm with hmm | hmm
        · exact hs m hmm
        · simp only [List.mem_singleton] at hmm
          exact hmm ▸ hc
      obtain ⟨g1, g2, g3, g4⟩ := ih (sent ++ [chunk]) (l ++ ['\n']) hs' hlen hls
        (Or.inr hvis)
      refine ⟨g1, g2, g3, ?_⟩
      rw [g4, List.flatten_append]
      simp [joinLines, List.append_assoc]
    · have hstep : chunksStep (sent, chunk) l = (sent, chunk ++ (l ++ ['\n'])) := by
        dsimp only [chunksStep]
        rw [if_neg hbig, List.append_assoc]
      rw [hstep]
      have hc' : (chunk ++ (l ++ ['\n'])).length ≤ telegramMax := by
        rw [not_lt] at hbig
        rw [← List.append_assoc]
        exact hbig
      have hvis' : (chunk ++ (l ++ ['\n'])).any (fun c => !c.isWhitespace) = true := by
        rw [List.any_append]
        simp [hvis]
      obtain ⟨g1, g2, g3, g4⟩ := ih sent (chunk ++ (l ++ ['\n'])) hs hc' hls
        (Or.inr hvis')
      refine ⟨g1, g2, g3, ?_⟩
      rw [g4]
      simp [joinLines, List.append_assoc]

/-- The initial chunk is empty or begins with a visible character. -/
theorem chunkInit_visible (title : Str) :
    chunkInit title = [] ∨
      (chunkInit title).any (fun c => !c.isWhitespace) = true := by
  by_cases h : title = []
  · left
    simp [chunkInit, h]
  · right
    simp [chunkInit, h]

/-- C9 counterexample: one 4000-character line yields a final message of
4001 characters (and a leading empty flush), so the sender does not keep
every message within the 4000-character budget. -/
theorem chunks_message_exceeds_budget :
    sendToTelegramChunks [bigLine] [] = [[], bigLine ++ ['\n']] ∧
    (bigLine ++ ['\n']).length = 4001 ∧
    (bigLine ++ ['\n']) ∈ sendToTelegramChunks [bigLine] [] ∧
    telegramMax < (bigLine ++ ['\n']).length := by
  have hlb : bigLine.length = 4000 := by
    unfold bigLine
    rw [List.length_replicate]
  have hlen : (bigLine ++ ['\n']).length = 4001 := by
    rw [List.length_append, hlb]
    rfl
  have hbig : telegramMax < (([] : Str) ++ bigLine ++ ['\n']).length := by
    rw [List.nil_append, hlen]
    norm_num [telegramMax]
  have hvis : (bigLine ++ ['\n']).any (fun c => !c.isWhitespace) = true := by
    rw [List.any_append, Bool.or_eq_true]
    left
    refine List.any_eq_true.mpr ⟨'a', ?_, by decide⟩
    exact List.mem_replicate.mpr ⟨by norm_num, rfl⟩
  have hinit : chunkInit [] = [] := by
    simp [chunkInit]
  have hstep : chunksStep (([] : List Str), ([] : Str)) bigLine
      = ([[]], bigLine ++ ['\n']) := by
    dsimp only [chunksStep]
    rw [if_pos hbig, List.nil_append]
  have hmain : sendToTelegramChunks [bigLine] [] = [[], bigLine ++ ['\n']] := by
    simp only [sendToTelegramChunks, hinit, List.foldl_cons, List.foldl_nil, hstep,
      hvis, if_true]
    rfl
  refine ⟨hmain, hlen, ?_, ?_⟩
  · rw [hmain]
    simp
  · rw [hlen]
    norm_num [telegramMax]

/-- C9 (amended): provided every line is shorter than 4000 characters and
contains a visible (non-whitespace) character, and the rendered title
header fits the budget, every message sent is at most 4000 characters
long; the messages concatenate to the title header followed by the lines
in order, each with its newline — so the lines are emitted in order and
the title appears only at the very front of the first message.  A new
chunk is started exactly when appending the next line would push the
current chunk past 4000 (the definition of chunksStep). -/
theorem chunks_bounded_and_ordered (lines : List Str) (title : Str)
    (ht : (chunkInit title).length ≤ telegramMax)
    (hl : ∀ l ∈ lines, l.length < telegramMax ∧
      l.any (fun c => !c.isWhitespace) = true) :
    (∀ m ∈ sendToTelegramChunks lines title, m.length ≤ telegramMax) ∧
    (sendToTelegramChunks lines title).flatten
      = chunkInit title ++ joinLines lines := by
  obtain ⟨g1, g2, g3, g4⟩ := chunksFold_invariant lines [] (chunkInit title)
    (by simp) ht hl (chunkInit_visible title)
  simp only [sendToTelegramChunks]
  by_cases hnb : (lines.foldl chunksStep ([], chunkInit title)).2.any
      (fun c => !c.isWhitespace) = true
  · rw [if_pos hnb]
    constructor
    · intro m hm
      rcases List.mem_append.mp hm with h | h
      · exact g1 m h
      · simp only [List.mem_singleton] at h
        exact h ▸ g2
    · rw [List.flatten_append]
      simpa using g4
  · rw [if_neg hnb]
    rcases g3 with h | h
    · refine ⟨g1, ?_⟩
      have hflat := g4
      rw [h, List.append_nil] at hflat
      simpa using hflat
    · exact absurd h hnb

/-- C9 witness: two short visible lines under a one-character title: every
message respects the budget and the concatenated output is the header
followed by the two lines in order. -/
theorem chunks_bounded_witness :
    (chunkInit ['T']).length ≤ telegramMax ∧
    (∀ l ∈ [['h', 'i'], ['y', 'o']], l.length < telegramMax ∧
      l.any (fun c => !c.isWhitespace) = true) ∧
    (∀ m ∈ sendToTelegramChunks [['h', 'i'], ['y', 'o']] ['T'],
      m.length ≤ telegramMax) ∧
    (sendToTelegramChunks [['h', 'i'], ['y', 'o']] ['T']).flatten
      = chunkInit ['T'] ++ joinLines [['h', 'i'], ['y', 'o']] := by
  have h := chunks_bounded_and_ordered [['h', 'i'], ['y', 'o']] ['T']
    (by decide) (by decide)
  exact ⟨by decide, by decide, h.1, h.2⟩

end PsTest
